import Mathlib

/-!
Verification development for `community_share/models/base.py`: the
`Serializable` base class used by persisted domain objects, providing
role-gated serialization (`serialize`), partial-update deserialization
(`admin_deserialize_add` / `admin_deserialize_update`), soft deletion
(`delete`) and query-filter construction (`_args_to_filter_params`,
`args_to_query`).

Python values flowing through the code are modeled by the inductive `Value`.
A textual timestamp that `dateutil.parser.parse` understands is modeled by
`Value.vdtstr wall offset`, recording the clock reading the text shows
(`wall`, in minutes) and the UTC offset the text carries, if any; every other
string is `Value.vstr`.  Exceptions raised by the code are modeled with
`Except PyErr`.  Side effects that matter to the specification (the call to
`store.session.add`, the `on_delete` hook, invocations of custom
deserializers and attribute assignments) are recorded explicitly in the
results of the translated functions.
-/

namespace CommunityShare

/-- A Python value as it appears in entity attributes and request data. -/
inductive Value where
  | vnone
  | vbool (b : Bool)
  | vint (n : Int)
  | vstr (s : String)
  | vdatetime (wall : Int)
  | vdtstr (wall : Int) (offset : Option Int)
  deriving DecidableEq, Repr

/-- Exceptions the translated code can raise: `ValidationException` from
`admin_deserialize_add`, `AttributeError` from a failing attribute access
(missing entity attribute in `serialize`, or the dispatch on a non-column
class attribute in the filter builder), the generic
`Exception('Unknown filter parameter')`, a failure of
`dateutil.parser.parse`, and `TypeError` from an ordering comparison on a
non-column class attribute. -/
inductive PyErr where
  | ValidationException (msg : String)
  | AttributeError (name : String)
  | UnknownFilterError
  | ParseError
  | TypeError
  deriving DecidableEq, Repr

/-- The external requester object; the code only reads `is_administrator`. -/
structure Requester where
  is_administrator : Bool
  deriving DecidableEq, Repr

/-- An entity instance: its named attributes, and the `active` soft-delete
column kept as a distinguished field. -/
structure Entity where
  attrs : List (String × Value)
  active : Bool
  deriving DecidableEq, Repr

/-- First-match lookup in an association list; models Python dictionary
lookup and name-keyed tables. -/
def lookupFn {α : Type} : List (String × α) → String → Option α
  | [], _ => none
  | p :: rest, k => if p.1 = k then some p.2 else lookupFn rest k

/-- Python `getattr(self, k)` restricted to the entity attribute table. -/
def getattr (self : Entity) (k : String) : Option Value :=
  lookupFn self.attrs k

/-- Python `hasattr(self, k)`. -/
def hasattr (self : Entity) (k : String) : Bool :=
  (getattr self k).isSome

/-- Helper for `setattr`: replace the binding of `k`, or append it. -/
def setattrList : List (String × Value) → String → Value → List (String × Value)
  | [], k, v => [(k, v)]
  | (k1, v1) :: rest, k, v =>
    if k1 = k then (k, v) :: rest else (k1, v1) :: setattrList rest k v

/-- Python `setattr(self, k, v)`. -/
def setattr (self : Entity) (k : String) (v : Value) : Entity :=
  { self with attrs := setattrList self.attrs k v }

/-- Class-level configuration of a `Serializable` subclass: the field-name
lists, the `PERMISSIONS` dictionary (flattened to its three boolean
entries), the `custom_serializers` and `custom_deserializers` tables, the
declared columns together with their is-Boolean-typed flag (used by the
filter builder), the names of the class attributes that are not mapped
columns — methods, the field-name lists, `PERMISSIONS`,
`CONDITION_MAPPING`, the (de)serializer tables — which are visible to
`hasattr(cls, ...)` but are plain Python objects without column reflection
or SQL operators, and the entity produced by the bare constructor
`cls()`. -/
structure SerializableClass where
  MANDATORY_FIELDS : List String
  WRITEABLE_ONCE_FIELDS : List String
  WRITEABLE_FIELDS : List String
  STANDARD_READABLE_FIELDS : List String
  ADMIN_READABLE_FIELDS : List String
  all_can_read_many : Bool
  standard_can_read_many : Bool
  admin_can_delete : Bool
  custom_serializers : List (String × (Entity → Option Requester → Value))
  custom_deserializers : List (String × (Entity → Value → Entity))
  columns : List (String × Bool)
  non_column_attrs : List String
  new : Entity

/-- Translation of `Serializable.has_add_rights`. -/
def has_add_rights (_cls : SerializableClass) (_data : List (String × Value))
    (requester : Option Requester) : Bool :=
  match requester with
  | some r => r.is_administrator
  | none => false

/-- Translation of `Serializable.has_standard_rights`. -/
def has_standard_rights (_self : Entity) (requester : Option Requester) : Bool :=
  requester.isSome

/-- Translation of `Serializable.has_admin_rights`. -/
def has_admin_rights (_self : Entity) (requester : Option Requester) : Bool :=
  match requester with
  | some r => r.is_administrator
  | none => false

/-- Translation of `Serializable.has_delete_rights`. -/
def has_delete_rights (cls : SerializableClass) (self : Entity)
    (requester : Option Requester) : Bool :=
  match requester with
  | none => false
  | some r =>
    if r.is_administrator then true
    else if cls.admin_can_delete && has_admin_rights self (some r) then true
    else false

/-- Observable outcome of `delete`: the entity afterwards, whether
`store.session.add(self)` was called, and whether the `on_delete` hook ran. -/
structure DeleteResult where
  entity : Entity
  persisted : Bool
  on_delete_called : Bool
  deriving DecidableEq, Repr

/-- Translation of `Serializable.delete`. -/
def delete (self : Entity) (_requester : Option Requester) : DeleteResult :=
  let previously_deleted := !self.active
  if !previously_deleted then
    ⟨{ self with active := false }, true, true⟩
  else
    ⟨self, false, false⟩

/-- Value of one key of the serialized dictionary: a registered custom
serializer if one exists for the key, otherwise plain attribute lookup
(which raises `AttributeError` when the attribute is missing). -/
def serializeValue (cls : SerializableClass) (self : Entity)
    (requester : Option Requester) (key : String) : Except PyErr Value :=
  match lookupFn cls.custom_serializers key with
  | some f => .ok (f self requester)
  | none =>
    match getattr self key with
    | some v => .ok v
    | none => .error (.AttributeError key)

/-- One enumeration of a finite set of field names (Python `set` iteration
order is unspecified, and only membership matters to the spec). -/
def dedupKeys : List String → List String
  | [] => []
  | k :: ks => if (dedupKeys ks).contains k then dedupKeys ks else k :: dedupKeys ks

/-- The key set of the serialized dictionary:
`(set(fieldnames) - set(exclude)) | ({'id'} if hasattr(self, 'id') else set())`. -/
def selectedKeys (fieldnames exclude : List String) (hasId : Bool) : List String :=
  if hasId && !(((dedupKeys fieldnames).filter (fun k => !(exclude.contains k))).contains "id") then
    (dedupKeys fieldnames).filter (fun k => !(exclude.contains k)) ++ ["id"]
  else
    (dedupKeys fieldnames).filter (fun k => !(exclude.contains k))

/-- The dictionary comprehension of `serialize`, over one enumeration of the
key set. -/
def serialize_pairs (cls : SerializableClass) (self : Entity)
    (requester : Option Requester) : List String → Except PyErr (List (String × Value))
  | [] => .ok []
  | k :: ks =>
    match serializeValue cls self requester k with
    | .ok v =>
      match serialize_pairs cls self requester ks with
      | .ok rest => .ok ((k, v) :: rest)
      | .error e => .error e
    | .error e => .error e

/-- Translation of `Serializable.serialize`: admin tier if admin rights,
else standard tier if standard rights, else `None`. -/
def serialize (cls : SerializableClass) (self : Entity) (requester : Option Requester)
    (exclude : List String) : Except PyErr (Option (List (String × Value))) :=
  if has_admin_rights self requester then
    match serialize_pairs cls self requester
        (selectedKeys cls.ADMIN_READABLE_FIELDS exclude (hasattr self "id")) with
    | .ok pairs => .ok (some pairs)
    | .error e => .error e
  else if has_standard_rights self requester then
    match serialize_pairs cls self requester
        (selectedKeys cls.STANDARD_READABLE_FIELDS exclude (hasattr self "id")) with
    | .ok pairs => .ok (some pairs)
    | .error e => .error e
  else
    .ok none

/-- Model of `dateutil.parser.parse` applied to a value: succeeds only on a
parseable timestamp string, yielding the clock reading the text shows and
the UTC offset it carries, if any. -/
def dateutil_parse : Value → Except PyErr (Int × Option Int)
  | .vdtstr wall offset => .ok (wall, offset)
  | _ => .error .ParseError

/-- Model of `datetime.replace(tzinfo=None)`: drop the offset and keep the
clock reading unchanged (no normalization to UTC happens). -/
def replace_tzinfo_none (p : Int × Option Int) : Value :=
  .vdatetime p.1

/-- The `fieldnames` set computed at the top of `admin_deserialize_update`:
mandatory, writeable and writeable-once fields in add mode, writeable fields
only otherwise. -/
def update_fieldnames (cls : SerializableClass) (add : Bool) : List String :=
  if add then cls.MANDATORY_FIELDS ++ cls.WRITEABLE_FIELDS ++ cls.WRITEABLE_ONCE_FIELDS
  else cls.WRITEABLE_FIELDS

/-- Observable actions taken by `admin_deserialize_update`: an invocation of
a registered custom deserializer with the raw incoming value, or a plain
`setattr` assignment. -/
inductive DeserEvent where
  | customCall (field : String) (value : Value)
  | assign (field : String) (value : Value)
  deriving DecidableEq, Repr

/-- Result of `admin_deserialize_update`: the mutated entity and the actions
taken, in order. -/
structure UpdateResult where
  entity : Entity
  events : List DeserEvent
  deriving DecidableEq, Repr

/-- The type-conversion step of `admin_deserialize_update`: the incoming
value is parsed and its offset dropped when the current value is exactly a
`datetime`, and is used unchanged otherwise. -/
def coerce_new_value (current raw : Value) : Except PyErr Value :=
  match current with
  | .vdatetime _ =>
    match dateutil_parse raw with
    | .ok p => .ok (replace_tzinfo_none p)
    | .error e => .error e
  | _ => .ok raw

/-- Body of the `for fieldname in data.keys()` loop of
`admin_deserialize_update`.  A registered custom deserializer is invoked
with the raw value regardless of the allowed field set; otherwise the field
is mutated only when it is in the allowed set, is a current attribute, and
the (possibly parsed) new value differs from the current one — and the
value assigned is the raw `data[fieldname]`. -/
def admin_deserialize_update_step (cls : SerializableClass) (fieldnames : List String)
    (data : List (String × Value)) (acc : UpdateResult) (fieldname : String) :
    Except PyErr UpdateResult :=
  match lookupFn cls.custom_deserializers fieldname with
  | some f =>
    let value := (lookupFn data fieldname).getD .vnone
    .ok ⟨f acc.entity value, acc.events ++ [.customCall fieldname value]⟩
  | none =>
    if fieldnames.contains fieldname && hasattr acc.entity fieldname then
      let current := (getattr acc.entity fieldname).getD .vnone
      let raw := (lookupFn data fieldname).getD .vnone
      match coerce_new_value current raw with
      | .ok new_value =>
        if current ≠ new_value then
          .ok ⟨setattr acc.entity fieldname raw, acc.events ++ [.assign fieldname raw]⟩
        else
          .ok acc
      | .error e => .error e
    else
      .ok acc

/-- The loop of `admin_deserialize_update`. -/
def admin_deserialize_update_go (cls : SerializableClass) (fieldnames : List String)
    (data : List (String × Value)) : UpdateResult → List String → Except PyErr UpdateResult
  | acc, [] => .ok acc
  | acc, k :: ks =>
    match admin_deserialize_update_step cls fieldnames data acc k with
    | .ok acc1 => admin_deserialize_update_go cls fieldnames data acc1 ks
    | .error e => .error e

/-- Translation of `Serializable.admin_deserialize_update`. -/
def admin_deserialize_update (cls : SerializableClass) (self : Entity)
    (data : List (String × Value)) (add : Bool) : Except PyErr UpdateResult :=
  admin_deserialize_update_go cls (update_fieldnames cls add) data ⟨self, []⟩
    (data.map Prod.fst)

/-- Translation of `Serializable.admin_deserialize_add`: raise
`ValidationException` at the first mandatory field missing from the data,
else construct a fresh entity and delegate to the update routine in add
mode. -/
def admin_deserialize_add (cls : SerializableClass) (data : List (String × Value)) :
    Except PyErr UpdateResult :=
  match cls.MANDATORY_FIELDS.find? (fun f => !((data.map Prod.fst).contains f)) with
  | some f => .error (.ValidationException ("Missing necessary field: " ++ f))
  | none => admin_deserialize_update cls cls.new data true

/-- The keys of `Serializable.CONDITION_MAPPING`. -/
def CONDITION_MAPPING_keys : List String :=
  ["greaterthanorequal", "greaterthan", "lessthanorequal", "lessthan"]

/-- A comparison operator from `CONDITION_MAPPING`. -/
inductive CmpOp where
  | greaterthanorequal
  | greaterthan
  | lessthanorequal
  | lessthan
  deriving DecidableEq, Repr

/-- Membership test `bits[1] in cls.CONDITION_MAPPING.keys()`, returning the
matching operator. -/
def cmpOpOf (s : String) : Option CmpOp :=
  if s = "greaterthanorequal" then some .greaterthanorequal
  else if s = "greaterthan" then some .greaterthan
  else if s = "lessthanorequal" then some .lessthanorequal
  else if s = "lessthan" then some .lessthan
  else none

/-- A SQLAlchemy filter predicate as built by `_args_to_filter_params`. -/
inductive FilterParam where
  | activeTrue
  | like (field pat : String)
  | ilike (field pat : String)
  | inPred (field : String) (vals : List String)
  | cmp (op : CmpOp) (field : String) (value : String)
  | eqCol (field : String) (value : Value)
  deriving DecidableEq, Repr

/-- The request-argument collection (a string-keyed multi-dict). -/
structure Args where
  entries : List (String × List String)
  deriving DecidableEq, Repr

/-- `args.keys()`. -/
def Args.keys (args : Args) : List String := args.entries.map Prod.fst

/-- `args[key]`: the first value for the key (empty string when absent;
keys are always taken from `args.keys()`). -/
def Args.get (args : Args) (k : String) : String :=
  ((lookupFn args.entries k).getD []).headD ""

/-- `args.getlist(key)`. -/
def Args.getlist (args : Args) (k : String) : List String :=
  (lookupFn args.entries k).getD []

/-- `hasattr(cls, name)`: true for declared columns and also for every
other class attribute (methods, the field-name lists, `PERMISSIONS`, the
(de)serializer tables), the latter modeled by `non_column_attrs`. -/
def cls_hasattr (cls : SerializableClass) (name : String) : Bool :=
  (lookupFn cls.columns name).isSome || cls.non_column_attrs.contains name

/-- Helper for `split_on_dot`: accumulate the current segment (reversed). -/
def splitDotAux : List Char → List Char → List String
  | [], acc => [String.mk acc.reverse]
  | c :: rest, acc =>
    if c = '.' then String.mk acc.reverse :: splitDotAux rest []
    else splitDotAux rest (c :: acc)

/-- Model of Python `key.split('.')`: always returns at least one segment,
splitting at every dot. -/
def split_on_dot (s : String) : List String :=
  splitDotAux s.toList []

/-- Body of the `for key in args.keys()` loop of `_args_to_filter_params`:
the (zero or one) predicates the key contributes, or the error it raises.
`hasattr(cls, bits[0])` admits non-column class attributes, so a key whose
base names one of those can still pass the guard: a recognized dotted
operator with a truthy value then fails in Python — `getattr` of the
missing `like`/`ilike`/`in_` raises `AttributeError`, and the
`CONDITION_MAPPING` comparison on a list/dict/function raises `TypeError`
— and a single-segment key fails on the missing `property` attribute. -/
def filter_param_for_key (cls : SerializableClass) (args : Args) (key : String) :
    Except PyErr (List FilterParam) :=
  let bits := split_on_dot key
  if cls_hasattr cls (bits.headD "") then
    if bits.length > 2 then
      .error .UnknownFilterError
    else if bits.length = 2 then
      let op := bits.getD 1 ""
      if op = "like" then
        if args.get key ≠ "" then
          if (lookupFn cls.columns (bits.headD "")).isSome = true then
            .ok [.like (bits.headD "") (args.get key)]
          else
            .error (.AttributeError "like")
        else .ok []
      else if op = "ilike" then
        if args.get key ≠ "" then
          if (lookupFn cls.columns (bits.headD "")).isSome = true then
            .ok [.ilike (bits.headD "") (args.get key)]
          else
            .error (.AttributeError "ilike")
        else .ok []
      else if op = "in" then
        if args.getlist key ≠ [] then
          if (lookupFn cls.columns (bits.headD "")).isSome = true then
            .ok [.inPred (bits.headD "") (args.getlist key)]
          else
            .error (.AttributeError "in_")
        else .ok []
      else
        match cmpOpOf op with
        | some c =>
          if args.get key ≠ "" then
            if (lookupFn cls.columns (bits.headD "")).isSome = true then
              .ok [.cmp c (bits.headD "") (args.get key)]
            else
              .error .TypeError
          else .ok []
        | none => .error .UnknownFilterError
    else if bits.length = 1 then
      if (lookupFn cls.columns key).isSome = true then
        let isBool := (lookupFn cls.columns key).getD false
        let value := args.get key
        let value1 : Value :=
          if isBool then
            if value = "true" then .vbool true
            else if value = "false" then .vbool false
            else .vstr value
          else .vstr value
        .ok [.eqCol key value1]
      else
        .error (.AttributeError "property")
    else
      .ok []
  else
    .ok []

/-- The loop of `_args_to_filter_params`, accumulating onto the initial
`[cls.active == True]` list. -/
def _args_to_filter_params_go (cls : SerializableClass) (args : Args) :
    List FilterParam → List String → Except PyErr (List FilterParam)
  | acc, [] => .ok acc
  | acc, k :: ks =>
    match filter_param_for_key cls args k with
    | .ok new => _args_to_filter_params_go cls args (acc ++ new) ks
    | .error e => .error e

/-- Translation of `Serializable._args_to_filter_params`. -/
def _args_to_filter_params (cls : SerializableClass) (args : Args) :
    Except PyErr (List FilterParam) :=
  _args_to_filter_params_go cls args [FilterParam.activeTrue] args.keys

/-- A query object: `store.session.query(cls).filter(*filter_args)` keeps
exactly the filter predicates. -/
structure Query where
  filters : List FilterParam
  deriving DecidableEq, Repr

/-- Translation of `Serializable._args_to_query`. -/
def _args_to_query (cls : SerializableClass) (args : Args)
    (_requester : Option Requester) : Except PyErr Query :=
  match _args_to_filter_params cls args with
  | .ok filter_args => .ok ⟨filter_args⟩
  | .error e => .error e

/-- Translation of `Serializable.args_to_query`. -/
def args_to_query (cls : SerializableClass) (args : Args)
    (requester : Option Requester) : Except PyErr Query :=
  _args_to_query cls args requester

/-- The dotted-operator names recognized by the filter dispatch: `like`,
`ilike`, `in`, and the four comparison operators. -/
def recognized_ops : List String :=
  ["like", "ilike", "in"] ++ CONDITION_MAPPING_keys

/-- Shape of a filter key that makes `_args_to_filter_params` raise the
unknown-filter error: the first dotted segment names a class attribute, and
the key has more than two segments or an unrecognized second segment. -/
def bad_filter_key (cls : SerializableClass) (key : String) : Bool :=
  cls_hasattr cls ((split_on_dot key).headD "") &&
    (decide ((split_on_dot key).length > 2) ||
      (decide ((split_on_dot key).length = 2) &&
        !(recognized_ops.contains ((split_on_dot key).getD 1 ""))))

/-- Instant denoted by a temporal value, reading a naive clock time as UTC:
an offset-carrying timestamp string denotes its clock reading shifted back
by its offset. -/
def denotes_instant : Value → Option Int
  | .vdatetime w => some w
  | .vdtstr w off => some (w - (off.getD 0))
  | _ => none

/-- A representative subclass configuration (a user-like entity), used to
evaluate the translated operations on concrete inputs. -/
def userClass : SerializableClass where
  MANDATORY_FIELDS := ["name"]
  WRITEABLE_ONCE_FIELDS := []
  WRITEABLE_FIELDS := ["name"]
  STANDARD_READABLE_FIELDS := ["id", "name"]
  ADMIN_READABLE_FIELDS := ["id", "name", "email"]
  all_can_read_many := false
  standard_can_read_many := false
  admin_can_delete := false
  custom_serializers := []
  custom_deserializers := []
  columns := [("id", false), ("name", false), ("email", false), ("active", true)]
  non_column_attrs := ["MANDATORY_FIELDS", "WRITEABLE_ONCE_FIELDS", "WRITEABLE_FIELDS",
    "STANDARD_READABLE_FIELDS", "ADMIN_READABLE_FIELDS", "PERMISSIONS", "CONDITION_MAPPING",
    "custom_serializers", "custom_deserializers", "has_add_rights", "has_standard_rights",
    "has_admin_rights", "has_delete_rights", "serialize", "delete", "on_delete", "on_add",
    "on_edit", "admin_deserialize", "admin_deserialize_add", "admin_deserialize_update",
    "_args_to_filter_params", "_args_to_query", "args_to_query"]
  new := ⟨[("id", .vnone), ("name", .vnone), ("email", .vnone)], true⟩

/-- A concrete entity of `userClass`. -/
def exEntity : Entity :=
  ⟨[("id", .vint 7), ("name", .vstr "bob"), ("email", .vstr "x")], true⟩

/-- A subclass configuration with a registered custom deserializer. -/
def tagClass : SerializableClass where
  MANDATORY_FIELDS := []
  WRITEABLE_ONCE_FIELDS := []
  WRITEABLE_FIELDS := ["name"]
  STANDARD_READABLE_FIELDS := ["id", "name"]
  ADMIN_READABLE_FIELDS := ["id", "name"]
  all_can_read_many := false
  standard_can_read_many := false
  admin_can_delete := false
  custom_serializers := []
  custom_deserializers := [("tag", fun e v => setattr e "tag" v)]
  columns := [("id", false), ("name", false), ("active", true)]
  non_column_attrs := ["MANDATORY_FIELDS", "WRITEABLE_ONCE_FIELDS", "WRITEABLE_FIELDS",
    "STANDARD_READABLE_FIELDS", "ADMIN_READABLE_FIELDS", "PERMISSIONS", "CONDITION_MAPPING",
    "custom_serializers", "custom_deserializers", "has_add_rights", "has_standard_rights",
    "has_admin_rights", "has_delete_rights", "serialize", "delete", "on_delete", "on_add",
    "on_edit", "admin_deserialize", "admin_deserialize_add", "admin_deserialize_update",
    "_args_to_filter_params", "_args_to_query", "args_to_query"]
  new := ⟨[("id", .vnone), ("name", .vnone)], true⟩

/-- A subclass configuration with a writeable date/time field. -/
def eventClass : SerializableClass where
  MANDATORY_FIELDS := []
  WRITEABLE_ONCE_FIELDS := []
  WRITEABLE_FIELDS := ["when"]
  STANDARD_READABLE_FIELDS := ["id", "when"]
  ADMIN_READABLE_FIELDS := ["id", "when"]
  all_can_read_many := false
  standard_can_read_many := false
  admin_can_delete := false
  custom_serializers := []
  custom_deserializers := []
  columns := [("id", false), ("when", false), ("active", true)]
  non_column_attrs := ["MANDATORY_FIELDS", "WRITEABLE_ONCE_FIELDS", "WRITEABLE_FIELDS",
    "STANDARD_READABLE_FIELDS", "ADMIN_READABLE_FIELDS", "PERMISSIONS", "CONDITION_MAPPING",
    "custom_serializers", "custom_deserializers", "has_add_rights", "has_standard_rights",
    "has_admin_rights", "has_delete_rights", "serialize", "delete", "on_delete", "on_add",
    "on_edit", "admin_deserialize", "admin_deserialize_add", "admin_deserialize_update",
    "_args_to_filter_params", "_args_to_query", "args_to_query"]
  new := ⟨[("id", .vnone), ("when", .vnone)], true⟩

/-- Boolean `List.contains` agrees with membership (for strings). -/
theorem contains_iff_mem (l : List String) (a : String) : l.contains a = true ↔ a ∈ l := by
  simp [List.contains]

/-- Negative form of `contains_iff_mem`. -/
theorem contains_eq_false_iff (l : List String) (a : String) :
    l.contains a = false ↔ a ∉ l := by
  rw [← contains_iff_mem l a]
  cases l.contains a <;> simp

/-- `dedupKeys` preserves membership. -/
theorem mem_dedupKeys (l : List String) : ∀ a, a ∈ dedupKeys l ↔ a ∈ l := by
  induction l with
  | nil =>
    intro a
    simp [dedupKeys]
  | cons k ks ih =>
    intro a
    by_cases h : (dedupKeys ks).contains k = true
    · have hk : k ∈ ks := (ih k).mp ((contains_iff_mem _ _).mp h)
      simp only [dedupKeys, if_pos h, List.mem_cons, ih a]
      constructor
      · exact Or.inr
      · rintro (rfl | ha)
        · exact hk
        · exact ha
    · simp only [dedupKeys, if_neg h, List.mem_cons, ih a]

/-- Membership in the serialized key set: a field survives iff it is a
readable field not excluded, or it is `id` and the entity has one. -/
theorem mem_selectedKeys (fieldnames exclude : List String) (hasId : Bool) (k : String) :
    k ∈ selectedKeys fieldnames exclude hasId ↔
      ((k ∈ fieldnames ∧ k ∉ exclude) ∨ (k = "id" ∧ hasId = true)) := by
  have hbase : ∀ x, (x ∈ (dedupKeys fieldnames).filter (fun y => !(exclude.contains y))) ↔
      (x ∈ fieldnames ∧ x ∉ exclude) := by
    intro x
    rw [List.mem_filter, mem_dedupKeys]
    constructor
    · rintro ⟨hx, hp⟩
      refine ⟨hx, fun hc => ?_⟩
      rw [(contains_iff_mem exclude x).mpr hc] at hp
      simp at hp
    · rintro ⟨hx, he⟩
      refine ⟨hx, ?_⟩
      rw [(contains_eq_false_iff exclude x).mpr he]
      rfl
  cases hasId with
  | false =>
    unfold selectedKeys
    rw [Bool.false_and, if_neg Bool.false_ne_true, hbase k]
    simp
  | true =>
    unfold selectedKeys
    rw [Bool.true_and]
    by_cases h2 : ((dedupKeys fieldnames).filter (fun y => !(exclude.contains y))).contains "id" = true
    · rw [h2, Bool.not_true, if_neg Bool.false_ne_true, hbase k]
      constructor
      · exact Or.inl
      · rintro (hk | ⟨rfl, _⟩)
        · exact hk
        · exact (hbase "id").mp ((contains_iff_mem _ _).mp h2)
    · have h2f : ((dedupKeys fieldnames).filter (fun y => !(exclude.contains y))).contains "id" = false := by
        cases hb : ((dedupKeys fieldnames).filter (fun y => !(exclude.contains y))).contains "id"
        · rfl
        · exact absurd hb h2
      rw [h2f, Bool.not_false, if_pos rfl, List.mem_append, hbase k, List.mem_singleton]
      constructor
      · rintro (hk | rfl)
        · exact Or.inl hk
        · exact Or.inr ⟨rfl, rfl⟩
      · rintro (hk | ⟨rfl, _⟩)
        · exact Or.inl hk
        · exact Or.inr rfl

/-- A successful dictionary comprehension produces exactly the requested
keys, in order. -/
theorem serialize_pairs_keys (cls : SerializableClass) (self : Entity)
    (requester : Option Requester) :
    ∀ (ks : List String) (pairs : List (String × Value)),
      serialize_pairs cls self requester ks = .ok pairs → pairs.map Prod.fst = ks := by
  intro ks
  induction ks with
  | nil =>
    intro pairs h
    injection h with h
    rw [← h]
    rfl
  | cons k ks ih =>
    intro pairs h
    rw [serialize_pairs] at h
    cases hv : serializeValue cls self requester k with
    | ok v =>
      rw [hv] at h
      cases hr : serialize_pairs cls self requester ks with
      | ok rest =>
        rw [hr] at h
        injection h with h
        rw [← h, List.map_cons, ih rest hr]
      | error e =>
        rw [hr] at h
        cases h
    | error e =>
      rw [hv] at h
      cases h

/-- A non-null `serialize` result has the admin key set under admin rights
and the standard key set otherwise. -/
theorem serialize_ok_keys (cls : SerializableClass) (self : Entity)
    (requester : Option Requester) (exclude : List String) (d : List (String × Value))
    (h : serialize cls self requester exclude = .ok (some d)) :
    (has_admin_rights self requester = true ∧
      d.map Prod.fst = selectedKeys cls.ADMIN_READABLE_FIELDS exclude (hasattr self "id")) ∨
    (has_admin_rights self requester = false ∧ has_standard_rights self requester = true ∧
      d.map Prod.fst = selectedKeys cls.STANDARD_READABLE_FIELDS exclude (hasattr self "id")) := by
  unfold serialize at h
  by_cases ha : has_admin_rights self requester = true
  · left
    refine ⟨ha, ?_⟩
    rw [if_pos ha] at h
    cases hp : serialize_pairs cls self requester
        (selectedKeys cls.ADMIN_READABLE_FIELDS exclude (hasattr self "id")) with
    | ok pairs =>
      rw [hp] at h
      injection h with h
      injection h with h
      rw [← h]
      exact serialize_pairs_keys cls self requester _ pairs hp
    | error e =>
      rw [hp] at h
      cases h
  · right
    have haf : has_admin_rights self requester = false := by
      cases hb : has_admin_rights self requester
      · rfl
      · exact absurd hb ha
    rw [if_neg ha] at h
    by_cases hs : has_standard_rights self requester = true
    · refine ⟨haf, hs, ?_⟩
      rw [if_pos hs] at h
      cases hp : serialize_pairs cls self requester
          (selectedKeys cls.STANDARD_READABLE_FIELDS exclude (hasattr self "id")) with
      | ok pairs =>
        rw [hp] at h
        injection h with h
        injection h with h
        rw [← h]
        exact serialize_pairs_keys cls self requester _ pairs hp
      | error e =>
        rw [hp] at h
        cases h
    · rw [if_neg hs] at h
      injection h with h
      cases h

/-- C1: `serialize` returns `None` for a null requester; for an
authenticated non-administrator any returned mapping has exactly the keys
`STANDARD_READABLE_FIELDS` minus the exclusions, plus `id` when the entity
has one; for an administrator the key set is drawn from
`ADMIN_READABLE_FIELDS` in the same way. -/
theorem serialize_key_tiers (cls : SerializableClass) (self : Entity) (exclude : List String) :
    serialize cls self none exclude = .ok none ∧
    (∀ r : Requester, r.is_administrator = false → ∀ d : List (String × Value),
      serialize cls self (some r) exclude = .ok (some d) →
      ∀ k, k ∈ d.map Prod.fst ↔
        ((k ∈ cls.STANDARD_READABLE_FIELDS ∧ k ∉ exclude) ∨
          (k = "id" ∧ hasattr self "id" = true))) ∧
    (∀ r : Requester, r.is_administrator = true → ∀ d : List (String × Value),
      serialize cls self (some r) exclude = .ok (some d) →
      ∀ k, k ∈ d.map Prod.fst ↔
        ((k ∈ cls.ADMIN_READABLE_FIELDS ∧ k ∉ exclude) ∨
          (k = "id" ∧ hasattr self "id" = true))) := by
  refine ⟨rfl, ?_, ?_⟩
  · intro r hr d h k
    rcases serialize_ok_keys cls self (some r) exclude d h with ⟨hadm, _⟩ | ⟨_, _, hkeys⟩
    · rw [show has_admin_rights self (some r) = r.is_administrator from rfl, hr] at hadm
      cases hadm
    · rw [hkeys]
      exact mem_selectedKeys _ _ _ _
  · intro r hr d h k
    rcases serialize_ok_keys cls self (some r) exclude d h with ⟨_, hkeys⟩ | ⟨hadm, _, _⟩
    · rw [hkeys]
      exact mem_selectedKeys _ _ _ _
    · rw [show has_admin_rights self (some r) = r.is_administrator from rfl, hr] at hadm
      cases hadm

/-- Witness for `serialize_key_tiers`: a concrete non-admin read of
`exEntity` with `name` excluded keeps exactly the key `id`. -/
theorem serialize_key_tiers_witness :
    (Requester.mk false).is_administrator = false ∧
    serialize userClass exEntity (some (Requester.mk false)) ["name"] =
      .ok (some [("id", Value.vint 7)]) ∧
    ("id" ∈ ([("id", Value.vint 7)] : List (String × Value)).map Prod.fst ↔
      (("id" ∈ userClass.STANDARD_READABLE_FIELDS ∧ "id" ∉ ["name"]) ∨
        ("id" = "id" ∧ hasattr exEntity "id" = true))) :=
  ⟨rfl, rfl,
    (serialize_key_tiers userClass exEntity ["name"]).2.1 ⟨false⟩ rfl
      [("id", Value.vint 7)] rfl "id"⟩

/-- C9: any non-null result of `serialize` on an entity that has an `id`
attribute contains the key `id`, even when `id` is in the exclusion list:
the union with the singleton `id` is applied after the exclusion set is
subtracted. -/
theorem serialize_includes_id (cls : SerializableClass) (self : Entity)
    (requester : Option Requester) (exclude : List String) (d : List (String × Value))
    (hid : hasattr self "id" = true)
    (h : serialize cls self requester exclude = .ok (some d)) :
    "id" ∈ d.map Prod.fst := by
  rcases serialize_ok_keys cls self requester exclude d h with ⟨_, hkeys⟩ | ⟨_, _, hkeys⟩ <;>
  · rw [hkeys, mem_selectedKeys]
    exact Or.inr ⟨rfl, hid⟩

/-- Witness for `serialize_includes_id`: excluding `id` itself still leaves
`id` in the result. -/
theorem serialize_includes_id_witness :
    hasattr exEntity "id" = true ∧
    serialize userClass exEntity (some (Requester.mk false)) ["id"] =
      .ok (some [("name", Value.vstr "bob"), ("id", Value.vint 7)]) ∧
    "id" ∈ ([("name", Value.vstr "bob"), ("id", Value.vint 7)] :
      List (String × Value)).map Prod.fst :=
  ⟨rfl, rfl,
    serialize_includes_id userClass exEntity (some (Requester.mk false)) ["id"]
      [("name", Value.vstr "bob"), ("id", Value.vint 7)] rfl rfl⟩

/-- C4 counterexample: with a null requester, `has_delete_rights` is false,
yet `delete` on an active entity still clears `active`, calls
`store.session.add`, and invokes the `on_delete` hook — the soft delete is
not gated by delete-rights. -/
theorem delete_not_gated_cex :
    has_delete_rights userClass ⟨[], true⟩ none = false ∧
    (delete ⟨[], true⟩ none).entity.active = false ∧
    (delete ⟨[], true⟩ none).persisted = true ∧
    (delete ⟨[], true⟩ none).on_delete_called = true :=
  ⟨rfl, rfl, rfl, rfl⟩

/-- C4 amended: `delete` never consults the requester or the delete-rights
check; for every requester it behaves identically, soft-deleting an active
entity (persisting the change and invoking `on_delete`) and doing nothing on
an inactive one. -/
theorem delete_requester_independent (e : Entity) (r1 r2 : Option Requester) :
    delete e r1 = delete e r2 ∧
    (e.active = true → delete e r1 = ⟨{ e with active := false }, true, true⟩) ∧
    (e.active = false → delete e r1 = ⟨e, false, false⟩) := by
  cases h : e.active <;> simp [delete, h]

/-- Witness for `delete_requester_independent` at a concrete active entity
and a null requester. -/
theorem delete_requester_independent_witness :
    (⟨[], true⟩ : Entity).active = true ∧
    delete ⟨[], true⟩ none = ⟨⟨[], false⟩, true, true⟩ :=
  ⟨rfl, (delete_requester_independent ⟨[], true⟩ none (some ⟨true⟩)).2.1 rfl⟩

/-- C8: `delete` is idempotent — on an inactive entity it is a no-op
(`active` stays false, nothing is persisted, the hook is not invoked); on an
active entity it clears `active`, persists, and invokes `on_delete`; after
any call the entity is inactive, a second call is a no-op, and across two
calls the hook runs at most once. -/
theorem delete_idempotent (e : Entity) (r : Option Requester) :
    (e.active = false → delete e r = ⟨e, false, false⟩) ∧
    (e.active = true → delete e r = ⟨{ e with active := false }, true, true⟩) ∧
    (delete e r).entity.active = false ∧
    delete (delete e r).entity r = ⟨(delete e r).entity, false, false⟩ ∧
    ¬((delete e r).on_delete_called = true ∧
      (delete (delete e r).entity r).on_delete_called = true) := by
  cases h : e.active <;> simp [delete, h]

/-- Witness for `delete_idempotent` at a concrete inactive entity. -/
theorem delete_idempotent_witness :
    (⟨[("id", Value.vint 1)], false⟩ : Entity).active = false ∧
    delete ⟨[("id", Value.vint 1)], false⟩ (some ⟨true⟩) =
      ⟨⟨[("id", Value.vint 1)], false⟩, false, false⟩ :=
  ⟨rfl, (delete_idempotent ⟨[("id", Value.vint 1)], false⟩ (some ⟨true⟩)).1 rfl⟩

/-- Unfolding of the update-loop body when a custom deserializer is
registered for the field. -/
theorem update_step_custom (cls : SerializableClass) (fieldnames : List String)
    (data : List (String × Value)) (acc : UpdateResult) (k : String)
    (f : Entity → Value → Entity)
    (hcd : lookupFn cls.custom_deserializers k = some f) :
    admin_deserialize_update_step cls fieldnames data acc k =
      .ok ⟨f acc.entity ((lookupFn data k).getD .vnone),
        acc.events ++ [.customCall k ((lookupFn data k).getD .vnone)]⟩ := by
  unfold admin_deserialize_update_step
  rw [hcd]

/-- Unfolding of the update-loop body when no custom deserializer is
registered for the field. -/
theorem update_step_nocustom_def (cls : SerializableClass) (fieldnames : List String)
    (data : List (String × Value)) (acc : UpdateResult) (k : String)
    (hcd : lookupFn cls.custom_deserializers k = none) :
    admin_deserialize_update_step cls fieldnames data acc k =
      (if (fieldnames.contains k && hasattr acc.entity k) = true then
        match coerce_new_value ((getattr acc.entity k).getD .vnone)
            ((lookupFn data k).getD .vnone) with
        | .ok new_value =>
          if ((getattr acc.entity k).getD .vnone) ≠ new_value then
            .ok ⟨setattr acc.entity k ((lookupFn data k).getD .vnone),
              acc.events ++ [.assign k ((lookupFn data k).getD .vnone)]⟩
          else .ok acc
        | .error e => .error e
      else .ok acc) := by
  unfold admin_deserialize_update_step
  rw [hcd]

/-- A failing `dateutil_parse` raises only a parse failure. -/
theorem dateutil_parse_error (v : Value) (e : PyErr) (h : dateutil_parse v = .error e) :
    e = PyErr.ParseError := by
  cases v <;> simp [dateutil_parse] at h <;> try exact h.symm

/-- A failing `coerce_new_value` raises only a parse failure. -/
theorem coerce_new_value_error (current raw : Value) (e : PyErr)
    (h : coerce_new_value current raw = .error e) : e = PyErr.ParseError := by
  cases current with
  | vdatetime w =>
    rw [coerce_new_value] at h
    cases hp : dateutil_parse raw with
    | ok p =>
      rw [hp] at h
      cases h
    | error e1 =>
      rw [hp] at h
      injection h with h
      rw [← h]
      exact dateutil_parse_error raw e1 hp
  | vnone => simp [coerce_new_value] at h
  | vbool b => simp [coerce_new_value] at h
  | vint n => simp [coerce_new_value] at h
  | vstr s => simp [coerce_new_value] at h
  | vdtstr w o => simp [coerce_new_value] at h

/-- Exhaustive characterization of a successful update-loop body: a custom
deserializer invocation, a guarded plain assignment of the raw value, or a
no-op. -/
theorem update_step_cases (cls : SerializableClass) (fieldnames : List String)
    (data : List (String × Value)) (acc : UpdateResult) (k : String) (r : UpdateResult)
    (h : admin_deserialize_update_step cls fieldnames data acc k = .ok r) :
    (∃ f, lookupFn cls.custom_deserializers k = some f ∧
      r = ⟨f acc.entity ((lookupFn data k).getD .vnone),
        acc.events ++ [.customCall k ((lookupFn data k).getD .vnone)]⟩) ∨
    (lookupFn cls.custom_deserializers k = none ∧
      (fieldnames.contains k && hasattr acc.entity k) = true ∧
      r = ⟨setattr acc.entity k ((lookupFn data k).getD .vnone),
        acc.events ++ [.assign k ((lookupFn data k).getD .vnone)]⟩) ∨
    (lookupFn cls.custom_deserializers k = none ∧ r = acc) := by
  cases hcd : lookupFn cls.custom_deserializers k with
  | some f =>
    rw [update_step_custom cls fieldnames data acc k f hcd] at h
    injection h with h
    exact Or.inl ⟨f, rfl, h.symm⟩
  | none =>
    rw [update_step_nocustom_def cls fieldnames data acc k hcd] at h
    by_cases hg : (fieldnames.contains k && hasattr acc.entity k) = true
    · rw [if_pos hg] at h
      cases hco : coerce_new_value ((getattr acc.entity k).getD .vnone)
          ((lookupFn data k).getD .vnone) with
      | ok nv =>
        simp only [hco] at h
        by_cases hne : ((getattr acc.entity k).getD .vnone) ≠ nv
        · rw [if_pos hne] at h
          injection h with h
          exact Or.inr (Or.inl ⟨rfl, hg, h.symm⟩)
        · rw [if_neg hne] at h
          injection h with h
          exact Or.inr (Or.inr ⟨rfl, h.symm⟩)
      | error e1 =>
        simp only [hco] at h
        cases h
    · rw [if_neg hg] at h
      injection h with h
      exact Or.inr (Or.inr ⟨rfl, h.symm⟩)

/-- A failing update-loop body raises only a parse failure. -/
theorem update_step_error_parse (cls : SerializableClass) (fieldnames : List String)
    (data : List (String × Value)) (acc : UpdateResult) (k : String) (e : PyErr)
    (h : admin_deserialize_update_step cls fieldnames data acc k = .error e) :
    e = PyErr.ParseError := by
  cases hcd : lookupFn cls.custom_deserializers k with
  | some f =>
    rw [update_step_custom cls fieldnames data acc k f hcd] at h
    cases h
  | none =>
    rw [update_step_nocustom_def cls fieldnames data acc k hcd] at h
    by_cases hg : (fieldnames.contains k && hasattr acc.entity k) = true
    · rw [if_pos hg] at h
      cases hco : coerce_new_value ((getattr acc.entity k).getD .vnone)
          ((lookupFn data k).getD .vnone) with
      | ok nv =>
        simp only [hco] at h
        by_cases hne : ((getattr acc.entity k).getD .vnone) ≠ nv
        · rw [if_pos hne] at h
          cases h
        · rw [if_neg hne] at h
          cases h
      | error e1 =>
        simp only [hco] at h
        injection h with h
        rw [← h]
        exact coerce_new_value_error _ _ _ hco
    · rw [if_neg hg] at h
      cases h

/-- A failing update loop raises only a parse failure. -/
theorem update_go_error_parse (cls : SerializableClass) (fieldnames : List String)
    (data : List (String × Value)) :
    ∀ (ks : List String) (acc : UpdateResult) (e : PyErr),
      admin_deserialize_update_go cls fieldnames data acc ks = .error e →
      e = PyErr.ParseError := by
  intro ks
  induction ks with
  | nil =>
    intro acc e h
    cases h
  | cons k0 ks ih =>
    intro acc e h
    rw [admin_deserialize_update_go] at h
    cases hs : admin_deserialize_update_step cls fieldnames data acc k0 with
    | ok acc1 =>
      rw [hs] at h
      exact ih acc1 e h
    | error e1 =>
      rw [hs] at h
      injection h with h
      rw [← h]
      exact update_step_error_parse cls fieldnames data acc k0 e1 hs

/-- A failing `admin_deserialize_update` raises only a parse failure (never
a `ValidationException`). -/
theorem update_error_parse (cls : SerializableClass) (self : Entity)
    (data : List (String × Value)) (add : Bool) (e : PyErr)
    (h : admin_deserialize_update cls self data add = .error e) : e = PyErr.ParseError := by
  unfold admin_deserialize_update at h
  exact update_go_error_parse cls (update_fieldnames cls add) data _ _ e h

/-- The update loop only appends to the event log. -/
theorem update_go_events_mono (cls : SerializableClass) (fieldnames : List String)
    (data : List (String × Value)) :
    ∀ (ks : List String) (acc r : UpdateResult),
      admin_deserialize_update_go cls fieldnames data acc ks = .ok r →
      ∀ ev, ev ∈ acc.events → ev ∈ r.events := by
  intro ks
  induction ks with
  | nil =>
    intro acc r h ev hev
    injection h with h
    rw [← h]
    exact hev
  | cons k0 ks ih =>
    intro acc r h ev hev
    rw [admin_deserialize_update_go] at h
    cases hs : admin_deserialize_update_step cls fieldnames data acc k0 with
    | ok acc1 =>
      rw [hs] at h
      refine ih acc1 r h ev ?_
      rcases update_step_cases cls fieldnames data acc k0 acc1 hs with
        ⟨f, _, rfl⟩ | ⟨_, _, rfl⟩ | ⟨_, rfl⟩
      · exact List.mem_append_left _ hev
      · exact List.mem_append_left _ hev
      · exact hev
    | error e =>
      rw [hs] at h
      cases h

/-- Every data key with a registered custom deserializer gets that
deserializer invoked with the raw value. -/
theorem update_go_custom_recorded (cls : SerializableClass) (fieldnames : List String)
    (data : List (String × Value)) :
    ∀ (ks : List String) (acc r : UpdateResult),
      admin_deserialize_update_go cls fieldnames data acc ks = .ok r →
      ∀ k, k ∈ ks → (lookupFn cls.custom_deserializers k).isSome = true →
      DeserEvent.customCall k ((lookupFn data k).getD .vnone) ∈ r.events := by
  intro ks
  induction ks with
  | nil =>
    intro acc r h k hk
    cases hk
  | cons k0 ks ih =>
    intro acc r h k hk hcustom
    rw [admin_deserialize_update_go] at h
    cases hs : admin_deserialize_update_step cls fieldnames data acc k0 with
    | ok acc1 =>
      rw [hs] at h
      rcases List.mem_cons.mp hk with rfl | hk2
      · rcases update_step_cases cls fieldnames data acc k acc1 hs with
          ⟨f, hf, rfl⟩ | ⟨hf, _, _⟩ | ⟨hf, _⟩
        · exact update_go_events_mono cls fieldnames data ks _ r h _
            (List.mem_append_right _ (List.mem_singleton.mpr rfl))
        · rw [hf] at hcustom
          cases hcustom
        · rw [hf] at hcustom
          cases hcustom
      · exact ih acc1 r h k hk2 hcustom
    | error e =>
      rw [hs] at h
      cases h

/-- Every assignment event comes from a data key without a custom
deserializer that lies in the allowed field-name set. -/
theorem update_go_assign_src (cls : SerializableClass) (fieldnames : List String)
    (data : List (String × Value)) :
    ∀ (ks : List String) (acc r : UpdateResult),
      admin_deserialize_update_go cls fieldnames data acc ks = .ok r →
      ∀ f v, DeserEvent.assign f v ∈ r.events →
        DeserEvent.assign f v ∈ acc.events ∨
        (f ∈ ks ∧ (lookupFn cls.custom_deserializers f).isNone = true ∧
          fieldnames.contains f = true) := by
  intro ks
  induction ks with
  | nil =>
    intro acc r h f v hev
    injection h with h
    rw [← h] at hev
    exact Or.inl hev
  | cons k0 ks ih =>
    intro acc r h f v hev
    rw [admin_deserialize_update_go] at h
    cases hs : admin_deserialize_update_step cls fieldnames data acc k0 with
    | ok acc1 =>
      rw [hs] at h
      rcases ih acc1 r h f v hev with hacc1 | ⟨hmem, hrest⟩
      · rcases update_step_cases cls fieldnames data acc k0 acc1 hs with
          ⟨g, hg, rfl⟩ | ⟨hg, hguard, rfl⟩ | ⟨hg, rfl⟩
        · rcases List.mem_append.mp hacc1 with h1 | h1
          · exact Or.inl h1
          · rw [List.mem_singleton] at h1
            cases h1
        · rcases List.mem_append.mp hacc1 with h1 | h1
          · exact Or.inl h1
          · rw [List.mem_singleton] at h1
            have hguard2 := hguard
            simp only [Bool.and_eq_true] at hguard2
            obtain ⟨hcont, _⟩ := hguard2
            injection h1 with h1a h1b
            subst h1a
            refine Or.inr ⟨List.mem_cons_self _ _, ?_, hcont⟩
            rw [hg]
            rfl
        · exact Or.inl hacc1
      · exact Or.inr ⟨List.mem_cons_of_mem _ hmem, hrest⟩
    | error e =>
      rw [hs] at h
      cases h

/-- Replacing a binding rewrites that key and leaves other lookups alone. -/
theorem lookupFn_setattrList (l : List (String × Value)) (k : String) (v : Value) :
    ∀ x, lookupFn (setattrList l k v) x = if x = k then some v else lookupFn l x := by
  induction l with
  | nil =>
    intro x
    by_cases hx : x = k
    · subst hx
      simp [setattrList, lookupFn]
    · have hkx : ¬(k = x) := fun h => hx h.symm
      simp [setattrList, lookupFn, hx, hkx]
  | cons p rest ih =>
    intro x
    obtain ⟨k1, v1⟩ := p
    by_cases h1 : k1 = k
    · subst h1
      rw [show setattrList ((k1, v1) :: rest) k1 v = (k1, v) :: rest from by
        rw [setattrList, if_pos rfl]]
      by_cases hx : x = k1
      · subst hx
        simp [lookupFn]
      · have hkx : ¬(k1 = x) := fun h => hx h.symm
        simp [lookupFn, hkx, hx]
    · rw [show setattrList ((k1, v1) :: rest) k v = (k1, v1) :: setattrList rest k v from by
        rw [setattrList, if_neg h1]]
      by_cases hx : x = k
      · subst hx
        have h1x : ¬(k1 = x) := fun h => h1 h
        rw [lookupFn, if_neg h1x, ih x, if_pos rfl, if_pos rfl]
      · by_cases h1x : k1 = x
        · rw [lookupFn, if_pos h1x, if_neg hx, lookupFn, if_pos h1x]
        · rw [lookupFn, if_neg h1x, ih x, if_neg hx, lookupFn, if_neg h1x, if_neg hx]

/-- `setattr` on an existing attribute preserves the attribute key set. -/
theorem hasattr_setattr (e : Entity) (k : String) (v : Value)
    (hk : hasattr e k = true) : ∀ x, hasattr (setattr e k v) x = hasattr e x := by
  intro x
  show (lookupFn (setattrList e.attrs k v) x).isSome = hasattr e x
  rw [lookupFn_setattrList e.attrs k v x]
  by_cases hx : x = k
  · subst hx
    rw [if_pos rfl]
    exact hk.symm
  · rw [if_neg hx]
    rfl

/-- With no custom deserializers, the update loop preserves the attribute
key set and records assignments only for current attributes. -/
theorem update_go_nocustom (cls : SerializableClass) (fieldnames : List String)
    (data : List (String × Value)) (hcd : cls.custom_deserializers = []) :
    ∀ (ks : List String) (acc r : UpdateResult),
      admin_deserialize_update_go cls fieldnames data acc ks = .ok r →
      (∀ x, hasattr r.entity x = hasattr acc.entity x) ∧
      (∀ f v, DeserEvent.assign f v ∈ r.events →
        DeserEvent.assign f v ∈ acc.events ∨ hasattr acc.entity f = true) := by
  intro ks
  induction ks with
  | nil =>
    intro acc r h
    injection h with h
    rw [← h]
    exact ⟨fun x => rfl, fun f v hev => Or.inl hev⟩
  | cons k0 ks ih =>
    intro acc r h
    rw [admin_deserialize_update_go] at h
    cases hs : admin_deserialize_update_step cls fieldnames data acc k0 with
    | ok acc1 =>
      rw [hs] at h
      obtain ⟨ih1, ih2⟩ := ih acc1 r h
      rcases update_step_cases cls fieldnames data acc k0 acc1 hs with
        ⟨g, hg, _⟩ | ⟨hg, hguard, rfl⟩ | ⟨hg, rfl⟩
      · rw [hcd] at hg
        cases hg
      · have hguard2 := hguard
        simp only [Bool.and_eq_true] at hguard2
        obtain ⟨_, hattr⟩ := hguard2
        constructor
        · intro x
          rw [ih1 x]
          exact hasattr_setattr acc.entity k0 _ hattr x
        · intro f v hev
          rcases ih2 f v hev with h1 | h1
          · rcases List.mem_append.mp h1 with h2 | h2
            · exact Or.inl h2
            · rw [List.mem_singleton] at h2
              injection h2 with h2a h2b
              subst h2a
              exact Or.inr hattr
          · rw [hasattr_setattr acc.entity k0 _ hattr f] at h1
            exact Or.inr h1
      · exact ⟨ih1, ih2⟩
    | error e =>
      rw [hs] at h
      cases h

/-- Keys with no custom deserializer that are outside the allowed set or
not current attributes are silently skipped. -/
theorem update_go_ignored (cls : SerializableClass) (fieldnames : List String)
    (data : List (String × Value)) :
    ∀ (ks : List String) (acc : UpdateResult),
      (∀ k, k ∈ ks → (lookupFn cls.custom_deserializers k).isNone = true ∧
        (fieldnames.contains k = false ∨ hasattr acc.entity k = false)) →
      admin_deserialize_update_go cls fieldnames data acc ks = .ok acc := by
  intro ks
  induction ks with
  | nil =>
    intro acc _
    rfl
  | cons k0 ks ih =>
    intro acc hall
    obtain ⟨hnone, hskip⟩ := hall k0 (List.mem_cons_self _ _)
    have hcd : lookupFn cls.custom_deserializers k0 = none := by
      cases hc : lookupFn cls.custom_deserializers k0
      · rfl
      · rw [hc] at hnone
        cases hnone
    have hguard : (fieldnames.contains k0 && hasattr acc.entity k0) = false := by
      rcases hskip with h1 | h1
      · rw [h1, Bool.false_and]
      · rw [h1, Bool.and_false]
    have hstep : admin_deserialize_update_step cls fieldnames data acc k0 = .ok acc := by
      rw [update_step_nocustom_def cls fieldnames data acc k0 hcd, hguard]
      rw [if_neg Bool.false_ne_true]
    rw [admin_deserialize_update_go, hstep]
    exact ih acc (fun k hk => hall k (List.mem_cons_of_mem _ hk))

/-- C2: `admin_deserialize_add` raises a `ValidationException` iff some
mandatory field is absent from the data; the message names the (first)
missing field; when no mandatory field is missing it constructs a fresh
entity and delegates to the update routine with `add` true. -/
theorem admin_deserialize_add_validation (cls : SerializableClass)
    (data : List (String × Value)) :
    ((∃ f, f ∈ cls.MANDATORY_FIELDS ∧ f ∉ data.map Prod.fst) ↔
      ∃ msg, admin_deserialize_add cls data = .error (.ValidationException msg)) ∧
    (∀ msg, admin_deserialize_add cls data = .error (.ValidationException msg) →
      ∃ f, f ∈ cls.MANDATORY_FIELDS ∧ f ∉ data.map Prod.fst ∧
        msg = "Missing necessary field: " ++ f) ∧
    ((∀ f, f ∈ cls.MANDATORY_FIELDS → f ∈ data.map Prod.fst) →
      admin_deserialize_add cls data = admin_deserialize_update cls cls.new data true) := by
  cases hf : cls.MANDATORY_FIELDS.find? (fun f => !((data.map Prod.fst).contains f)) with
  | some f0 =>
    have hp0 := List.find?_some hf
    have hp : (!((data.map Prod.fst).contains f0)) = true := hp0
    have hmem : f0 ∈ cls.MANDATORY_FIELDS := List.mem_of_find?_eq_some hf
    have hnotin : f0 ∉ data.map Prod.fst := by
      intro hc
      rw [(contains_iff_mem _ _).mpr hc] at hp
      cases hp
    have hadd : admin_deserialize_add cls data =
        .error (.ValidationException ("Missing necessary field: " ++ f0)) := by
      unfold admin_deserialize_add
      rw [hf]
    refine ⟨⟨fun _ => ⟨_, hadd⟩, fun _ => ⟨f0, hmem, hnotin⟩⟩, ?_, ?_⟩
    · intro msg hmsg
      rw [hadd] at hmsg
      injection hmsg with hmsg
      injection hmsg with hmsg
      exact ⟨f0, hmem, hnotin, hmsg.symm⟩
    · intro hall
      exact absurd (hall f0 hmem) hnotin
  | none =>
    have hall : ∀ f ∈ cls.MANDATORY_FIELDS, f ∈ data.map Prod.fst := by
      intro f hfm
      have hnp := List.find?_eq_none.mp hf f hfm
      by_contra hc
      apply hnp
      rw [(contains_eq_false_iff _ _).mpr hc]
      rfl
    have hadd : admin_deserialize_add cls data =
        admin_deserialize_update cls cls.new data true := by
      unfold admin_deserialize_add
      rw [hf]
    refine ⟨⟨?_, ?_⟩, ?_, fun _ => hadd⟩
    · rintro ⟨f, hfm, hfn⟩
      exact absurd (hall f hfm) hfn
    · rintro ⟨msg, hmsg⟩
      rw [hadd] at hmsg
      exfalso
      have hcontra := update_error_parse cls cls.new data true _ hmsg
      cases hcontra
    · intro msg hmsg
      rw [hadd] at hmsg
      exfalso
      have hcontra := update_error_parse cls cls.new data true _ hmsg
      cases hcontra

/-- Witness for `admin_deserialize_add_validation`: with the single
mandatory field present, the add path delegates to the update routine. -/
theorem admin_deserialize_add_validation_witness :
    (∀ f, f ∈ userClass.MANDATORY_FIELDS →
      f ∈ ([("name", Value.vstr "bob")] : List (String × Value)).map Prod.fst) ∧
    admin_deserialize_add userClass [("name", Value.vstr "bob")] =
      admin_deserialize_update userClass userClass.new [("name", Value.vstr "bob")] true :=
  ⟨by decide,
    (admin_deserialize_add_validation userClass [("name", Value.vstr "bob")]).2.2 (by decide)⟩

/-- C3: in `admin_deserialize_update`, every data key with a registered
custom deserializer has it invoked with the raw value regardless of the
allowed set; every plain assignment is to a key of the data that lies in
mandatory plus writeable plus writeable-once when `add` is true (writeable
only otherwise) and has no custom deserializer, and (absent custom
deserializers) names a current attribute of the entity; data made only of
other keys is silently ignored without error. -/
theorem admin_deserialize_update_allowed (cls : SerializableClass) (self : Entity)
    (data : List (String × Value)) (add : Bool) (r : UpdateResult)
    (h : admin_deserialize_update cls self data add = .ok r) :
    (∀ k, k ∈ data.map Prod.fst → (lookupFn cls.custom_deserializers k).isSome = true →
      DeserEvent.customCall k ((lookupFn data k).getD .vnone) ∈ r.events) ∧
    (∀ f v, DeserEvent.assign f v ∈ r.events →
      f ∈ data.map Prod.fst ∧ (lookupFn cls.custom_deserializers f).isNone = true ∧
      f ∈ (if add then cls.MANDATORY_FIELDS ++ cls.WRITEABLE_FIELDS ++ cls.WRITEABLE_ONCE_FIELDS
        else cls.WRITEABLE_FIELDS)) ∧
    (cls.custom_deserializers = [] →
      ∀ f v, DeserEvent.assign f v ∈ r.events → hasattr self f = true) ∧
    ((∀ k, k ∈ data.map Prod.fst → (lookupFn cls.custom_deserializers k).isNone = true ∧
        ((update_fieldnames cls add).contains k = false ∨ hasattr self k = false)) →
      r = ⟨self, []⟩) := by
  unfold admin_deserialize_update at h
  refine ⟨?_, ?_, ?_, ?_⟩
  · intro k hk hc
    exact update_go_custom_recorded cls (update_fieldnames cls add) data _ _ r h k hk hc
  · intro f v hev
    rcases update_go_assign_src cls (update_fieldnames cls add) data _ ⟨self, []⟩ r h f v hev with
      h1 | ⟨hmem, hnone, hcont⟩
    · cases h1
    · refine ⟨hmem, hnone, ?_⟩
      have hm := (contains_iff_mem _ _).mp hcont
      rw [update_fieldnames] at hm
      exact hm
  · intro hcd f v hev
    rcases (update_go_nocustom cls (update_fieldnames cls add) data hcd _ ⟨self, []⟩ r h).2
        f v hev with h1 | h1
    · cases h1
    · exact h1
  · intro hall
    have hgo := update_go_ignored cls (update_fieldnames cls add) data
      (data.map Prod.fst) ⟨self, []⟩ hall
    rw [hgo] at h
    injection h with h
    exact h.symm

/-- Witness for `admin_deserialize_update_allowed`: a concrete update with a
custom-deserialized key records the invocation of the custom deserializer. -/
theorem admin_deserialize_update_allowed_witness :
    admin_deserialize_update tagClass ⟨[("name", Value.vstr "a")], true⟩
        [("tag", Value.vint 3)] false =
      .ok ⟨⟨[("name", Value.vstr "a"), ("tag", Value.vint 3)], true⟩,
        [.customCall "tag" (Value.vint 3)]⟩ ∧
    "tag" ∈ ([("tag", Value.vint 3)] : List (String × Value)).map Prod.fst ∧
    (lookupFn tagClass.custom_deserializers "tag").isSome = true ∧
    DeserEvent.customCall "tag" ((lookupFn [("tag", Value.vint 3)] "tag").getD .vnone) ∈
      ([DeserEvent.customCall "tag" (Value.vint 3)] : List DeserEvent) :=
  ⟨rfl, by decide, rfl,
    (admin_deserialize_update_allowed tagClass ⟨[("name", Value.vstr "a")], true⟩
      [("tag", Value.vint 3)] false
      ⟨⟨[("name", Value.vstr "a"), ("tag", Value.vint 3)], true⟩,
        [.customCall "tag" (Value.vint 3)]⟩ rfl).1 "tag" (by decide) rfl⟩

/-- Unfolding of the update-loop body on a date/time-valued field: the raw
value is parsed and its offset dropped for the comparison, and on a
difference the raw value itself is assigned. -/
theorem update_step_datetime (cls : SerializableClass) (fieldnames : List String)
    (data : List (String × Value)) (acc : UpdateResult) (k : String)
    (w wall : Int) (off : Option Int)
    (hc : lookupFn cls.custom_deserializers k = none)
    (hguard : (fieldnames.contains k && hasattr acc.entity k) = true)
    (hcur : (getattr acc.entity k).getD .vnone = .vdatetime w)
    (hparse : dateutil_parse ((lookupFn data k).getD .vnone) = .ok (wall, off)) :
    admin_deserialize_update_step cls fieldnames data acc k =
      if w = wall then .ok acc
      else .ok ⟨setattr acc.entity k ((lookupFn data k).getD .vnone),
        acc.events ++ [.assign k ((lookupFn data k).getD .vnone)]⟩ := by
  have hco : coerce_new_value ((getattr acc.entity k).getD .vnone)
      ((lookupFn data k).getD .vnone) = .ok (.vdatetime wall) := by
    rw [hcur, coerce_new_value, hparse]
    rfl
  rw [update_step_nocustom_def cls fieldnames data acc k hc, if_pos hguard]
  simp only [hco]
  rw [hcur]
  by_cases hw : w = wall
  · subst hw
    rw [if_pos rfl, if_neg (fun hne => hne rfl)]
  · rw [if_neg hw, if_pos (fun heq => hw (Value.vdatetime.inj heq))]

/-- C6 counterexample: with current value `vdatetime 0` and incoming
timestamp string parsing to clock reading 5, the comparison sees the parsed
naive value, but the value stored by the assignment is the raw string
(`vdtstr 5 none`), not the parsed `vdatetime 5`. -/
theorem datetime_assigns_raw_cex :
    replace_tzinfo_none (5, none) = Value.vdatetime 5 ∧
    admin_deserialize_update eventClass ⟨[("when", Value.vdatetime 0)], true⟩
        [("when", Value.vdtstr 5 none)] false =
      .ok ⟨⟨[("when", Value.vdtstr 5 none)], true⟩,
        [.assign "when" (Value.vdtstr 5 none)]⟩ ∧
    Value.vdtstr 5 none ≠ Value.vdatetime 5 :=
  ⟨rfl, rfl, by decide⟩

/-- C6 amended: on a date/time-valued field the incoming value is parsed to
a timezone-naive date/time for the comparison only; when the comparison
finds a difference, the value assigned to the entity is the raw incoming
value, not the parsed one. -/
theorem datetime_update_assigns_raw (cls : SerializableClass) (e : Entity) (k : String)
    (v : Value) (w wall : Int) (off : Option Int) (add : Bool)
    (hc : lookupFn cls.custom_deserializers k = none)
    (hf : (update_fieldnames cls add).contains k = true)
    (ha : getattr e k = some (.vdatetime w))
    (hp : dateutil_parse v = .ok (wall, off)) :
    admin_deserialize_update cls e [(k, v)] add =
      if w = wall then .ok ⟨e, []⟩
      else .ok ⟨setattr e k v, [DeserEvent.assign k v]⟩ := by
  have hattr : hasattr e k = true := by
    rw [hasattr, ha]
    rfl
  have hraw : lookupFn [(k, v)] k = some v := by
    simp [lookupFn]
  have hstep := update_step_datetime cls (update_fieldnames cls add) [(k, v)] ⟨e, []⟩ k
    w wall off hc
    (show ((update_fieldnames cls add).contains k && hasattr e k) = true by
      rw [hf, hattr]
      rfl)
    (show (getattr e k).getD Value.vnone = Value.vdatetime w by
      rw [ha]
      rfl)
    (show dateutil_parse ((lookupFn [(k, v)] k).getD Value.vnone) = Except.ok (wall, off) by
      rw [hraw]
      exact hp)
  rw [hraw] at hstep
  unfold admin_deserialize_update
  show admin_deserialize_update_go cls (update_fieldnames cls add) [(k, v)] ⟨e, []⟩ [k] = _
  by_cases hw : w = wall
  · rw [if_pos hw] at hstep
    rw [if_pos hw, admin_deserialize_update_go, hstep]
    rfl
  · rw [if_neg hw] at hstep
    rw [if_neg hw, admin_deserialize_update_go, hstep]
    rfl

/-- Witness for `datetime_update_assigns_raw` at concrete inputs: current
clock reading 0, incoming reading 5, so the raw string is assigned. -/
theorem datetime_update_assigns_raw_witness :
    lookupFn eventClass.custom_deserializers "when" = none ∧
    (update_fieldnames eventClass false).contains "when" = true ∧
    getattr ⟨[("when", Value.vdatetime 0)], true⟩ "when" = some (Value.vdatetime 0) ∧
    dateutil_parse (Value.vdtstr 5 none) = .ok (5, none) ∧
    admin_deserialize_update eventClass ⟨[("when", Value.vdatetime 0)], true⟩
        [("when", Value.vdtstr 5 none)] false =
      (if (0 : Int) = 5 then .ok ⟨⟨[("when", Value.vdatetime 0)], true⟩, []⟩
       else .ok ⟨setattr ⟨[("when", Value.vdatetime 0)], true⟩ "when" (Value.vdtstr 5 none),
         [DeserEvent.assign "when" (Value.vdtstr 5 none)]⟩) :=
  ⟨rfl, rfl, rfl, rfl,
    datetime_update_assigns_raw eventClass ⟨[("when", Value.vdatetime 0)], true⟩ "when"
      (Value.vdtstr 5 none) 0 5 none false rfl rfl rfl rfl⟩

/-- C7 counterexample: an incoming timestamp string that denotes the same
instant as the current naive value but carries a nonzero UTC offset (clock
reading 780, offset 60, i.e. the instant 720) is not recognized as equal:
the offset is dropped without normalization, the comparison sees 780 vs
720, and an assignment of the raw value occurs, changing the entity. -/
theorem datetime_same_instant_cex :
    denotes_instant (Value.vdatetime 720) = denotes_instant (Value.vdtstr 780 (some 60)) ∧
    admin_deserialize_update eventClass ⟨[("when", Value.vdatetime 720)], true⟩
        [("when", Value.vdtstr 780 (some 60))] false =
      .ok ⟨⟨[("when", Value.vdtstr 780 (some 60))], true⟩,
        [DeserEvent.assign "when" (Value.vdtstr 780 (some 60))]⟩ ∧
    (⟨[("when", Value.vdtstr 780 (some 60))], true⟩ : Entity) ≠
      ⟨[("when", Value.vdatetime 720)], true⟩ :=
  ⟨rfl, rfl, by decide⟩

/-- C7 amended: on a date/time-valued field, no assignment happens exactly
when the incoming value parses to the same clock reading after its offset
is dropped (so equal-instant strings at a nonzero UTC offset do trigger an
assignment, while same-reading representations do not); in the no-op case
the entity is returned entirely unchanged. -/
theorem datetime_same_wallclock_noop (cls : SerializableClass) (e : Entity) (k : String)
    (v : Value) (w : Int) (off : Option Int) (add : Bool)
    (hc : lookupFn cls.custom_deserializers k = none)
    (ha : getattr e k = some (.vdatetime w))
    (hp : dateutil_parse v = .ok (w, off)) :
    admin_deserialize_update cls e [(k, v)] add = .ok ⟨e, []⟩ := by
  have hattr : hasattr e k = true := by
    rw [hasattr, ha]
    rfl
  have hraw : lookupFn [(k, v)] k = some v := by
    simp [lookupFn]
  unfold admin_deserialize_update
  show admin_deserialize_update_go cls (update_fieldnames cls add) [(k, v)] ⟨e, []⟩ [k] = _
  by_cases hf : (update_fieldnames cls add).contains k = true
  · have hstep := update_step_datetime cls (update_fieldnames cls add) [(k, v)] ⟨e, []⟩ k
      w w off hc
      (show ((update_fieldnames cls add).contains k && hasattr e k) = true by
        rw [hf, hattr]
        rfl)
      (show (getattr e k).getD Value.vnone = Value.vdatetime w by
        rw [ha]
        rfl)
      (show dateutil_parse ((lookupFn [(k, v)] k).getD Value.vnone) = Except.ok (w, off) by
        rw [hraw]
        exact hp)
    rw [if_pos rfl] at hstep
    rw [admin_deserialize_update_go, hstep]
    rfl
  · have hff : (update_fieldnames cls add).contains k = false := by
      cases hb : (update_fieldnames cls add).contains k
      · rfl
      · exact absurd hb hf
    have hstep : admin_deserialize_update_step cls (update_fieldnames cls add)
        [(k, v)] ⟨e, []⟩ k = .ok ⟨e, []⟩ := by
      rw [update_step_nocustom_def cls (update_fieldnames cls add) [(k, v)] ⟨e, []⟩ k hc]
      rw [show ((update_fieldnames cls add).contains k &&
          hasattr (⟨e, []⟩ : UpdateResult).entity k) = false by rw [hff, Bool.false_and]]
      rw [if_neg Bool.false_ne_true]
    rw [admin_deserialize_update_go, hstep]
    rfl

/-- Witness for `datetime_same_wallclock_noop`: a UTC-marked string with the
same clock reading as the current value leaves the entity unchanged. -/
theorem datetime_same_wallclock_noop_witness :
    lookupFn eventClass.custom_deserializers "when" = none ∧
    getattr ⟨[("when", Value.vdatetime 720)], true⟩ "when" = some (Value.vdatetime 720) ∧
    dateutil_parse (Value.vdtstr 720 (some 0)) = .ok (720, some 0) ∧
    admin_deserialize_update eventClass ⟨[("when", Value.vdatetime 720)], true⟩
        [("when", Value.vdtstr 720 (some 0))] false =
      .ok ⟨⟨[("when", Value.vdatetime 720)], true⟩, []⟩ :=
  ⟨rfl, rfl, rfl,
    datetime_same_wallclock_noop eventClass ⟨[("when", Value.vdatetime 720)], true⟩ "when"
      (Value.vdtstr 720 (some 0)) 720 (some 0) false rfl rfl rfl⟩

/-- Unfolded characterization of `bad_filter_key`. -/
theorem bad_filter_key_iff (cls : SerializableClass) (key : String) :
    bad_filter_key cls key = true ↔
      (cls_hasattr cls ((split_on_dot key).headD "") = true ∧
        ((split_on_dot key).length > 2 ∨
          ((split_on_dot key).length = 2 ∧
            recognized_ops.contains ((split_on_dot key).getD 1 "") = false))) := by
  unfold bad_filter_key
  simp [Bool.and_eq_true, Bool.or_eq_true, decide_eq_true_eq, Bool.not_eq_true']

/-- A key of bad shape contributes the unknown-filter error. -/
theorem filter_key_error_of_bad (cls : SerializableClass) (args : Args) (key : String)
    (hbad : bad_filter_key cls key = true) :
    filter_param_for_key cls args key = .error .UnknownFilterError := by
  rw [bad_filter_key_iff] at hbad
  obtain ⟨hattr, hshape⟩ := hbad
  simp only [filter_param_for_key]
  rw [if_pos hattr]
  rcases hshape with hgt | ⟨h2, hrec⟩
  · rw [if_pos hgt]
  · rw [if_neg (by omega : ¬((split_on_dot key).length > 2)), if_pos h2]
    have hnmem : ((split_on_dot key).getD 1 "") ∉ recognized_ops := by
      intro hm
      rw [(contains_iff_mem _ _).mpr hm] at hrec
      cases hrec
    have hlike : ¬((split_on_dot key).getD 1 "" = "like") := fun h => hnmem (by rw [h]; decide)
    have hilike : ¬((split_on_dot key).getD 1 "" = "ilike") := fun h => hnmem (by rw [h]; decide)
    have hin : ¬((split_on_dot key).getD 1 "" = "in") := fun h => hnmem (by rw [h]; decide)
    have hge : ¬((split_on_dot key).getD 1 "" = "greaterthanorequal") :=
      fun h => hnmem (by rw [h]; decide)
    have hgt2 : ¬((split_on_dot key).getD 1 "" = "greaterthan") :=
      fun h => hnmem (by rw [h]; decide)
    have hle : ¬((split_on_dot key).getD 1 "" = "lessthanorequal") :=
      fun h => hnmem (by rw [h]; decide)
    have hlt : ¬((split_on_dot key).getD 1 "" = "lessthan") :=
      fun h => hnmem (by rw [h]; decide)
    rw [if_neg hlike, if_neg hilike, if_neg hin]
    rw [show cmpOpOf ((split_on_dot key).getD 1 "") = none from by
      unfold cmpOpOf
      rw [if_neg hge, if_neg hgt2, if_neg hle, if_neg hlt]]

/-- A guarded dispatch (truthiness check, then column check) never yields
the unknown-filter error: it yields a predicate, nothing, or the attribute
or type error of the non-column path. -/
theorem guarded_dispatch_ne_unknown (c1 c2 : Prop) [Decidable c1] [Decidable c2]
    (a : List FilterParam) (e : PyErr) (he : e ≠ PyErr.UnknownFilterError) :
    (if c1 then
      if c2 then (Except.ok a : Except PyErr (List FilterParam))
      else Except.error e
     else Except.ok []) ≠ Except.error PyErr.UnknownFilterError := by
  by_cases h1 : c1
  · rw [if_pos h1]
    by_cases h2 : c2
    · rw [if_pos h2]
      intro hcon
      cases hcon
    · rw [if_neg h2]
      intro hcon
      injection hcon with hcon
      exact he hcon
  · rw [if_neg h1]
    intro hcon
    cases hcon

/-- A key of good shape never yields the unknown-filter error (it may still
raise the attribute or type error of the non-column dispatch paths). -/
theorem filter_key_good_not_unknown (cls : SerializableClass) (args : Args) (key : String)
    (hgood : bad_filter_key cls key = false) :
    filter_param_for_key cls args key ≠ .error .UnknownFilterError := by
  have hnot : ¬(cls_hasattr cls ((split_on_dot key).headD "") = true ∧
      ((split_on_dot key).length > 2 ∨
        ((split_on_dot key).length = 2 ∧
          recognized_ops.contains ((split_on_dot key).getD 1 "") = false))) := by
    rw [← bad_filter_key_iff, hgood]
    simp
  by_cases hattr : cls_hasattr cls ((split_on_dot key).headD "") = true
  · have hshape : ¬((split_on_dot key).length > 2 ∨
        ((split_on_dot key).length = 2 ∧
          recognized_ops.contains ((split_on_dot key).getD 1 "") = false)) :=
      fun h => hnot ⟨hattr, h⟩
    have hgt : ¬((split_on_dot key).length > 2) := fun h => hshape (Or.inl h)
    have h2rec : (split_on_dot key).length = 2 →
        recognized_ops.contains ((split_on_dot key).getD 1 "") = true := by
      intro h2
      cases hb : recognized_ops.contains ((split_on_dot key).getD 1 "")
      · exact absurd (Or.inr ⟨h2, hb⟩) hshape
      · rfl
    simp only [filter_param_for_key]
    rw [if_pos hattr, if_neg hgt]
    by_cases h2 : (split_on_dot key).length = 2
    · rw [if_pos h2]
      have hmem : ((split_on_dot key).getD 1 "") ∈ recognized_ops :=
        (contains_iff_mem _ _).mp (h2rec h2)
      simp only [recognized_ops, CONDITION_MAPPING_keys, List.cons_append, List.nil_append,
        List.mem_cons, List.not_mem_nil, or_false] at hmem
      rcases hmem with h | h | h | h | h | h | h
      · rw [h, if_pos (rfl : ("like" : String) = "like")]
        exact guarded_dispatch_ne_unknown _ _ _ _ (by intro hcon; cases hcon)
      · rw [h, if_neg (by decide : ¬(("ilike" : String) = "like")),
          if_pos (rfl : ("ilike" : String) = "ilike")]
        exact guarded_dispatch_ne_unknown _ _ _ _ (by intro hcon; cases hcon)
      · rw [h, if_neg (by decide : ¬(("in" : String) = "like")),
          if_neg (by decide : ¬(("in" : String) = "ilike")),
          if_pos (rfl : ("in" : String) = "in")]
        exact guarded_dispatch_ne_unknown _ _ _ _ (by intro hcon; cases hcon)
      · rw [h, if_neg (by decide : ¬(("greaterthanorequal" : String) = "like")),
          if_neg (by decide : ¬(("greaterthanorequal" : String) = "ilike")),
          if_neg (by decide : ¬(("greaterthanorequal" : String) = "in")),
          show cmpOpOf "greaterthanorequal" = some CmpOp.greaterthanorequal from rfl]
        exact guarded_dispatch_ne_unknown _ _ _ _ (by intro hcon; cases hcon)
      · rw [h, if_neg (by decide : ¬(("greaterthan" : String) = "like")),
          if_neg (by decide : ¬(("greaterthan" : String) = "ilike")),
          if_neg (by decide : ¬(("greaterthan" : String) = "in")),
          show cmpOpOf "greaterthan" = some CmpOp.greaterthan from rfl]
        exact guarded_dispatch_ne_unknown _ _ _ _ (by intro hcon; cases hcon)
      · rw [h, if_neg (by decide : ¬(("lessthanorequal" : String) = "like")),
          if_neg (by decide : ¬(("lessthanorequal" : String) = "ilike")),
          if_neg (by decide : ¬(("lessthanorequal" : String) = "in")),
          show cmpOpOf "lessthanorequal" = some CmpOp.lessthanorequal from rfl]
        exact guarded_dispatch_ne_unknown _ _ _ _ (by intro hcon; cases hcon)
      · rw [h, if_neg (by decide : ¬(("lessthan" : String) = "like")),
          if_neg (by decide : ¬(("lessthan" : String) = "ilike")),
          if_neg (by decide : ¬(("lessthan" : String) = "in")),
          show cmpOpOf "lessthan" = some CmpOp.lessthan from rfl]
        exact guarded_dispatch_ne_unknown _ _ _ _ (by intro hcon; cases hcon)
    · rw [if_neg h2]
      by_cases h1 : (split_on_dot key).length = 1
      · rw [if_pos h1]
        by_cases hcol : (lookupFn cls.columns key).isSome = true
        · rw [if_pos hcol]
          intro hcon
          cases hcon
        · rw [if_neg hcol]
          intro hcon
          injection hcon with hcon
          cases hcon
      · rw [if_neg h1]
        intro hcon
        cases hcon
  · have hattrf : cls_hasattr cls ((split_on_dot key).headD "") = false := by
      cases hb : cls_hasattr cls ((split_on_dot key).headD "")
      · rfl
      · exact absurd hb hattr
    simp only [filter_param_for_key]
    rw [if_neg (by rw [hattrf]; exact Bool.false_ne_true)]
    intro hcon
    cases hcon

/-- A key yields the unknown-filter error exactly when it has bad shape. -/
theorem filter_key_unknown_iff (cls : SerializableClass) (args : Args) (key : String) :
    filter_param_for_key cls args key = .error .UnknownFilterError ↔
      bad_filter_key cls key = true := by
  constructor
  · intro h
    cases hb : bad_filter_key cls key
    · exact absurd h (filter_key_good_not_unknown cls args key hb)
    · rfl
  · exact filter_key_error_of_bad cls args key

/-- The filter loop only grows the accumulated predicate list. -/
theorem filter_go_mem (cls : SerializableClass) (args : Args) :
    ∀ (ks : List String) (acc fps : List FilterParam),
      _args_to_filter_params_go cls args acc ks = .ok fps →
      ∀ p, p ∈ acc → p ∈ fps := by
  intro ks
  induction ks with
  | nil =>
    intro acc fps h p hp
    injection h with h
    rw [← h]
    exact hp
  | cons k0 ks ih =>
    intro acc fps h p hp
    rw [_args_to_filter_params_go] at h
    cases hk : filter_param_for_key cls args k0 with
    | ok new =>
      rw [hk] at h
      exact ih (acc ++ new) fps h p (List.mem_append_left _ hp)
    | error e =>
      rw [hk] at h
      cases h

/-- An unknown-filter result of the loop exhibits a bad-shaped key (the
loop stops at the first failing key, so this direction is unconditional). -/
theorem filter_go_unknown_has_bad (cls : SerializableClass) (args : Args) :
    ∀ (ks : List String) (acc : List FilterParam),
      _args_to_filter_params_go cls args acc ks = .error .UnknownFilterError →
      ∃ k, k ∈ ks ∧ bad_filter_key cls k = true := by
  intro ks
  induction ks with
  | nil =>
    intro acc h
    cases h
  | cons k0 ks ih =>
    intro acc h
    rw [_args_to_filter_params_go] at h
    cases hk : filter_param_for_key cls args k0 with
    | ok new =>
      rw [hk] at h
      obtain ⟨k, hk2, hb⟩ := ih (acc ++ new) h
      exact ⟨k, List.mem_cons_of_mem _ hk2, hb⟩
    | error e1 =>
      rw [hk] at h
      injection h with h
      rw [h] at hk
      exact ⟨k0, List.mem_cons_self _ _, (filter_key_unknown_iff cls args k0).mp hk⟩

/-- When no key of the loop hits the attribute/type-error paths, the loop
yields the unknown-filter error exactly when one of its keys has bad
shape. -/
theorem filter_go_error_iff (cls : SerializableClass) (args : Args) :
    ∀ (ks : List String) (acc : List FilterParam),
      (∀ k, k ∈ ks → ∀ e, filter_param_for_key cls args k = .error e →
        e = PyErr.UnknownFilterError) →
      (_args_to_filter_params_go cls args acc ks = .error .UnknownFilterError ↔
        ∃ k, k ∈ ks ∧ bad_filter_key cls k = true) := by
  intro ks
  induction ks with
  | nil =>
    intro acc _
    constructor
    · intro h
      cases h
    · rintro ⟨k, hk, _⟩
      cases hk
  | cons k0 ks ih =>
    intro acc hprov
    by_cases hbad0 : bad_filter_key cls k0 = true
    · constructor
      · intro _
        exact ⟨k0, List.mem_cons_self _ _, hbad0⟩
      · intro _
        rw [_args_to_filter_params_go, filter_key_error_of_bad cls args k0 hbad0]
    · have hg : bad_filter_key cls k0 = false := by
        cases hb : bad_filter_key cls k0
        · rfl
        · exact absurd hb hbad0
      have hok : ∃ l, filter_param_for_key cls args k0 = .ok l := by
        cases hf : filter_param_for_key cls args k0 with
        | ok l => exact ⟨l, rfl⟩
        | error e =>
          have he := hprov k0 (List.mem_cons_self _ _) e hf
          rw [he] at hf
          exact absurd hf (filter_key_good_not_unknown cls args k0 hg)
      obtain ⟨l, hl⟩ := hok
      rw [show _args_to_filter_params_go cls args acc (k0 :: ks) =
          _args_to_filter_params_go cls args (acc ++ l) ks from by
        rw [_args_to_filter_params_go, hl]]
      rw [ih (acc ++ l) (fun k hk => hprov k (List.mem_cons_of_mem _ hk))]
      constructor
      · rintro ⟨k, hk, hb⟩
        exact ⟨k, List.mem_cons_of_mem _ hk, hb⟩
      · rintro ⟨k, hk, hb⟩
        rcases List.mem_cons.mp hk with rfl | hk2
        · rw [hg] at hb
          cases hb
        · exact ⟨k, hk2, hb⟩

/-- C5 counterexample: the key `foo.bar.baz` has three segments, and the
claim says this raises an unknown-filter error; but its base segment `foo`
is not an attribute of the class, so the code silently ignores it and
returns only the `active == True` predicate. -/
theorem unknown_filter_cex :
    (split_on_dot "foo.bar.baz").length = 3 ∧
    cls_hasattr userClass "foo" = false ∧
    _args_to_filter_params userClass ⟨[("foo.bar.baz", ["x"])]⟩ =
      .ok [FilterParam.activeTrue] :=
  ⟨rfl, rfl, rfl⟩

/-- C5 amended: a key yields the unknown-filter error iff its first dotted
segment names a class attribute — any attribute, column or not (`hasattr`)
— and the key has more than two segments or a second segment outside
`like`, `ilike`, `in`, `greaterthanorequal`, `greaterthan`,
`lessthanorequal`, `lessthan`; keys whose first segment names no class
attribute are silently ignored even with three or more segments.  Over a
whole argument collection (processed stopping at the first failing key), an
unknown-filter result implies such a bad key exists, and conversely, when
no key hits the attribute/type-error paths of the dispatch (a recognized
operator or a single-segment filter on a non-column class attribute), the
unknown-filter error is raised iff some key has bad shape. -/
theorem unknown_filter_amended (cls : SerializableClass) (args : Args) :
    (∀ key, filter_param_for_key cls args key = .error .UnknownFilterError ↔
      bad_filter_key cls key = true) ∧
    (_args_to_filter_params cls args = .error .UnknownFilterError →
      ∃ k, k ∈ args.keys ∧ bad_filter_key cls k = true) ∧
    ((∀ k, k ∈ args.keys → ∀ e, filter_param_for_key cls args k = .error e →
        e = PyErr.UnknownFilterError) →
      (_args_to_filter_params cls args = .error .UnknownFilterError ↔
        ∃ k, k ∈ args.keys ∧ bad_filter_key cls k = true)) := by
  refine ⟨fun key => filter_key_unknown_iff cls args key, ?_, ?_⟩
  · intro h
    exact filter_go_unknown_has_bad cls args args.keys [FilterParam.activeTrue] h
  · intro hprov
    exact filter_go_error_iff cls args args.keys [FilterParam.activeTrue] hprov

/-- Witness for `unknown_filter_amended`: a column base field with an
unrecognized operator raises the unknown-filter error, and the whole
argument collection errors accordingly. -/
theorem unknown_filter_amended_witness :
    bad_filter_key userClass "name.badop" = true ∧
    filter_param_for_key userClass ⟨[("name.badop", ["x"])]⟩ "name.badop" =
      .error .UnknownFilterError ∧
    _args_to_filter_params userClass ⟨[("name.badop", ["x"])]⟩ =
      .error .UnknownFilterError :=
  ⟨by decide,
    ((unknown_filter_amended userClass ⟨[("name.badop", ["x"])]⟩).1 "name.badop").mpr
      (by decide),
    rfl⟩

/-- C10: the filter-parameter list built by `_args_to_filter_params` always
contains the `active == True` predicate, so every query built by
`args_to_query` is restricted to non-deleted rows regardless of the
supplied arguments. -/
theorem args_to_query_active (cls : SerializableClass) (args : Args)
    (requester : Option Requester) :
    (∀ fps, _args_to_filter_params cls args = .ok fps → FilterParam.activeTrue ∈ fps) ∧
    (∀ q, args_to_query cls args requester = .ok q → FilterParam.activeTrue ∈ q.filters) := by
  have hfps : ∀ fps, _args_to_filter_params cls args = .ok fps →
      FilterParam.activeTrue ∈ fps := by
    intro fps h
    exact filter_go_mem cls args args.keys [FilterParam.activeTrue] fps h _
      (List.mem_singleton.mpr rfl)
  refine ⟨hfps, ?_⟩
  intro q h
  unfold args_to_query _args_to_query at h
  cases hf : _args_to_filter_params cls args with
  | ok fps =>
    rw [hf] at h
    injection h with h
    rw [← h]
    exact hfps fps hf
  | error e =>
    rw [hf] at h
    cases h

/-- Witness for `args_to_query_active`: a concrete equality filter still
carries the `active == True` predicate. -/
theorem args_to_query_active_witness :
    args_to_query userClass ⟨[("name", ["bob"])]⟩ none =
      .ok ⟨[FilterParam.activeTrue, FilterParam.eqCol "name" (Value.vstr "bob")]⟩ ∧
    FilterParam.activeTrue ∈
      [FilterParam.activeTrue, FilterParam.eqCol "name" (Value.vstr "bob")] :=
  ⟨rfl,
    (args_to_query_active userClass ⟨[("name", ["bob"])]⟩ none).2
      ⟨[FilterParam.activeTrue, FilterParam.eqCol "name" (Value.vstr "bob")]⟩ rfl⟩

end CommunityShare
